import Mathlib

/-!
Verification development for the Gmail update/history polling and
handler-dispatch engine of the google-workspace library
(src/google_workspace/gmail/: gmail.py, handlers.py, histories.py,
helper.py, utils.py).

The Python code is shallowly embedded: the mutable client state becomes an
explicit record, the infinite polling loop becomes a recursion over a finite
script of remote fetch outcomes, the worker thread becomes a recursion over
the queue contents it drains, and remote calls (history fetch, message
resolution) are parameters supplied by the environment.  History ids are
Python ints, embedded as Int.
-/

namespace GW

/-- The four Gmail history types (the Literal type used throughout gmail.py,
handlers.py and histories.py). -/
inductive HistoryType
  | messageAdded
  | messageDeleted
  | labelAdded
  | labelRemoved
deriving DecidableEq, Repr

/-- One change record, from History.__init__ (histories.py lines 44-65):
label_ids is history_data["message"].get("labelIds", []), modified_labels is
history_data.get("labelIds", []), plus the thread id, message id and the
history type.  The record carries no per-entry history position: the raw
entry id is dropped by ListHistoryResponse.__iter__. -/
structure History where
  label_ids : List String
  modified_labels : List String
  thread_id : String
  gmail_id : String
  history_type : HistoryType
deriving DecidableEq, Repr

/-- A registered handler, from BaseHandler.__init__ (handlers.py lines 39-56).
The Python callback is an opaque callable observed only through invocation,
embedded as a numeric token.  labels is the result of get_proper_label_ids
(None stays None, otherwise a list); filters is None or a list of predicates;
history_types defaults to all four when the argument is falsy. -/
structure Handler where
  callback : Nat
  labels : Option (List String)
  filters : Option (List (History → Bool))
  history_types : List HistoryType
  modified_labels : Option (List String)

/-- First condition of BaseHandler.check (handlers.py lines 59-61): when the
handler has a labels filter, every required label must be among the record's
current label ids. -/
def labels_pass (labels : Option (List String)) (history : History) : Bool :=
  match labels with
  | none => true
  | some ls => ls.all (fun label => history.label_ids.contains label)

/-- Second condition of BaseHandler.check (handlers.py lines 63-68): the
modified-labels filter is consulted only when the record's own
modified_labels list is truthy (non-empty). -/
def modified_pass (ml : Option (List String)) (history : History) : Bool :=
  match ml with
  | none => true
  | some ls =>
    match history.modified_labels with
    | [] => true
    | _ :: _ => ls.all (fun label => history.modified_labels.contains label)

/-- Third condition of BaseHandler.check (handlers.py lines 70-73): all
filter predicates must return true. -/
def filters_pass (fs : Option (List (History → Bool))) (history : History) : Bool :=
  match fs with
  | none => true
  | some fs => fs.all (fun f => f history)

/-- BaseHandler.check (handlers.py lines 58-75): the three conditions in
source order; the Python code returns False at the first failing one. -/
def Handler.check (self : Handler) (history : History) : Bool :=
  labels_pass self.labels history &&
    (modified_pass self.modified_labels history && filters_pass self.filters history)

/-- Items of updates_queue: a History record or the None stop sentinel. -/
abbrev QueueItem := Option History

/-- Python dict lookup for the insertion-ordered dicts self.handlers and
self._handlers_config["labels_per_type"], modelled as association lists. -/
def dictGet {β : Type} (d : List (HistoryType × β)) (t : HistoryType) : Option β :=
  match d with
  | [] => none
  | (k, v) :: rest => if k = t then some v else dictGet rest t

/-- Python dict assignment: updating an existing key keeps its position, a
new key is appended (insertion order). -/
def dictSet {β : Type} (d : List (HistoryType × β)) (t : HistoryType) (v : β) :
    List (HistoryType × β) :=
  match d with
  | [] => [(t, v)]
  | (k, w) :: rest => if k = t then (k, v) :: rest else (k, w) :: dictSet rest t v

/-- Python truthiness of a handler labels value: None and the empty list are
falsy. -/
def truthyLabels (labels : Option (List String)) : Bool :=
  match labels with
  | some (_ :: _) => true
  | _ => false

/-- The append loop inside add_labels_to_handler_config: each label not yet
in the config is appended, keeping first-seen order. -/
def appendMissing (config : List String) (labels : List String) : List String :=
  labels.foldl (fun c label => if c.contains label then c else c ++ [label]) config

/-- utils.add_labels_to_handler_config (utils.py lines 463-473): a falsy
labels value makes the config None; otherwise missing labels are appended to
a non-None config, and a None config stays None. -/
def add_labels_to_handler_config (labels : Option (List String))
    (config : Option (List String)) : Option (List String) :=
  if truthyLabels labels then
    match config with
    | some c => some (appendMissing c (labels.getD []))
    | none => none
  else none

/-- The mutable registry state of GmailClient: self.handlers,
self._handlers_config["labels_per_type"] and self._handlers_config["labels"]
(gmail.py lines 79-80). -/
structure ClientState where
  handlers : List (HistoryType × List Handler)
  labels_per_type : List (HistoryType × Option (List String))
  labels_config : Option (List String)

/-- The state right after GmailClient.__init__: empty handlers dict, empty
labels_per_type dict, and labels config the empty list. -/
def initClient : ClientState := ⟨[], [], some []⟩

/-- The for-loop body of GmailClient.add_handler (gmail.py lines 338-349):
for each history type of the handler, append the handler to that type's list
and fold its labels into that type's label config (dict default: the empty
list). -/
def add_handler_types (h : Handler) (ts : List HistoryType) (st : ClientState) :
    ClientState :=
  match ts with
  | [] => st
  | t :: rest =>
      add_handler_types h rest
        { st with
          handlers := dictSet st.handlers t ((dictGet st.handlers t).getD [] ++ [h]),
          labels_per_type := dictSet st.labels_per_type t
            (add_labels_to_handler_config h.labels
              ((dictGet st.labels_per_type t).getD (some []))) }

/-- GmailClient.add_handler (gmail.py lines 330-353): the per-type loop,
then the global labels config update. -/
def add_handler (st : ClientState) (h : Handler) : ClientState :=
  let st' := add_handler_types h h.history_types st
  { st' with labels_config := add_labels_to_handler_config h.labels st'.labels_config }

/-- Registering a list of handlers in order on a fresh client. -/
def registerAll (hs : List Handler) : ClientState :=
  hs.foldl add_handler initClient

/-- The label_id computation of GmailClient.get_updates (gmail.py lines
374-379): the single label when the aggregated config is a one-element list,
else None. -/
def computeLabelId (labels_to_handle : Option (List String)) : Option String :=
  match labels_to_handle with
  | some [l] => some l
  | _ => none

/-- Outcome of one remote history fetch: the response historyId (set by
ListHistoryResponse.__init__ from the first page, histories.py line 120)
together with the decoded records, or an HTTP error. -/
inductive FetchError
  | invalidStartPosition
  | other
deriving DecidableEq, Repr

inductive FetchResult
  | ok (history_id : Int) (records : List History)
  | err (e : FetchError)
deriving DecidableEq, Repr

/-- One environment cycle for the polling loop: the fetch outcome and
whether stop_request is set when the loop checks it after enqueueing. -/
structure Cycle where
  result : FetchResult
  stopAfter : Bool
deriving DecidableEq, Repr

/-- Loop-owned state: the history_id checkpoint and the updates queue. -/
structure LoopState where
  history_id : Int
  queue : List QueueItem
deriving DecidableEq, Repr

/-- Observable events of the polling loop, in program order. -/
inductive Event
  | fetch (start_history_id : Int) (label_id : Option String)
      (history_types : List HistoryType)
  | setCheckpoint (history_id : Int)
  | enqueue (record : History)
  | sleep
deriving DecidableEq, Repr

inductive LoopOutcome
  | noHandlers
  | scriptEnded
  | stopped
  | errored (e : FetchError)
deriving DecidableEq, Repr

/-- The while loop of GmailClient.get_updates (gmail.py lines 381-388),
driven by a finite script of fetch outcomes.  Per iteration, in source
order: the guard (empty history_types means the loop never runs), the fetch,
the checkpoint assignment self.history_id = histories.history_id, the
enqueue of each record, the stop_request check, the sleep.  A fetch error
propagates out of the loop. -/
def get_updates_loop (label_id : Option String) (history_types : List HistoryType)
    (st : LoopState) (script : List Cycle) : LoopState × List Event × LoopOutcome :=
  match history_types with
  | [] => (st, [], .noHandlers)
  | _ :: _ =>
    match script with
    | [] => (st, [], .scriptEnded)
    | c :: rest =>
      match c.result with
      | .err e => (st, [.fetch st.history_id label_id history_types], .errored e)
      | .ok hid records =>
        let evs := Event.fetch st.history_id label_id history_types ::
          Event.setCheckpoint hid :: records.map Event.enqueue
        let st' : LoopState := ⟨hid, st.queue ++ records.map some⟩
        if c.stopAfter then (st', evs, .stopped)
        else
          let r := get_updates_loop label_id history_types st' rest
          (r.1, evs ++ Event.sleep :: r.2.1, r.2.2)

/-- The save_state checkpoint restore at the top of get_updates (gmail.py
lines 368-369): self.history_id = self.service.get_value("history_id") or
self.history_id, where a falsy stored value (absent, or the int 0) keeps the
current history id. -/
def load_checkpoint (save_state : Bool) (stored : Option Int) (hid : Int) : Int :=
  if save_state then
    match stored with
    | some v => if v = 0 then hid else v
    | none => hid
  else hid

/-- GmailClient.get_updates (gmail.py lines 363-388): restore the
checkpoint, take the registered history types (the dict keys) and the
aggregated label filter, then run the polling loop with an empty queue. -/
def get_updates (st : ClientState) (save_state : Bool) (stored : Option Int)
    (history_id : Int) (script : List Cycle) : LoopState × List Event × LoopOutcome :=
  get_updates_loop (computeLabelId st.labels_config) (st.handlers.map Prod.fst)
    ⟨load_checkpoint save_state stored history_id, []⟩ script

/-- GmailClient._handle_stop (gmail.py lines 390-401): without save_state
the queue is cleared; with save_state the value int(history_id) - 1 is
persisted (the model keeps history_id always set, as the lazy property
guarantees in the source); then one None sentinel per worker is enqueued.
Returns the queue after the sentinels and the persisted value, if any. -/
def handle_stop (save_state : Bool) (workers : Nat) (history_id : Int)
    (queue : List QueueItem) : List QueueItem × Option Int :=
  if save_state then
    (queue ++ List.replicate workers none, some (history_id - 1))
  else
    (List.replicate workers none, none)

/-- Result of GmailClient.run: loop state when get_updates returned, the
event trace, the loop outcome, and the effects of the _handle_stop call in
the finally block. -/
structure RunResult where
  final : LoopState
  trace : List Event
  outcome : LoopOutcome
  queue_after_stop : List QueueItem
  persisted : Option Int
deriving DecidableEq, Repr

/-- GmailClient.run (gmail.py lines 403-419): get_updates inside
try/finally, with _handle_stop always executed, also when the loop errored
(after which the exception re-raises). -/
def run (st : ClientState) (save_state : Bool) (workers : Nat) (stored : Option Int)
    (history_id : Int) (script : List Cycle) : RunResult :=
  let r := get_updates st save_state stored history_id script
  let s := handle_stop save_state workers r.1.history_id r.1.queue
  ⟨r.1, r.2.1, r.2.2, s.1, s.2⟩

/-- Resolution outcome of history.message (histories.py lines 67-73): the
message downloads, or the HTTP error "Requested entity was not found.", or
any other HTTP error. -/
inductive ResolutionError
  | notFound
  | other
deriving DecidableEq, Repr

/-- The early-return condition of utils.handle_update (utils.py line 447):
the per-type label config is truthy and no label of the record is in it. -/
def prefilterSkips (handle_labels : Option (List String)) (history : History) : Bool :=
  truthyLabels handle_labels &&
    !(history.label_ids.any (fun label => (handle_labels.getD []).contains label))

/-- utils.handle_update (utils.py lines 442-460): the label prefilter, then
message resolution — a not-found error skips the record, any other error
re-raises — then the dispatch loop invoking, in list order, the callback of
every handler whose check passes.  The value is the invoked callback tokens,
or the propagated error. -/
def handle_update (st : ClientState) (resolution : Except ResolutionError Unit)
    (history : History) : Except ResolutionError (List Nat) :=
  let handle_labels := (dictGet st.labels_per_type history.history_type).getD none
  if prefilterSkips handle_labels history then .ok []
  else
    match resolution with
    | .error .notFound => .ok []
    | .error e => .error e
    | .ok _ =>
        .ok ((((dictGet st.handlers history.history_type).getD []).filter
          (fun h => h.check history)).map Handler.callback)

/-- GmailClient.update_worker (gmail.py lines 355-361): dequeue until a None
sentinel (which is never passed to handle_update); an exception from
handle_update propagates and terminates the worker loop.  The worker is
modelled on the list of items it drains; the value is the invoked callback
tokens and the error that killed it, if any. -/
def update_worker (st : ClientState) (resolve : History → Except ResolutionError Unit) :
    List QueueItem → List Nat × Option ResolutionError
  | [] => ([], none)
  | none :: _ => ([], none)
  | some h :: rest =>
    match handle_update st (resolve h) h with
    | .error e => ([], some e)
    | .ok calls =>
      let r := update_worker st resolve rest
      (calls ++ r.1, r.2)

/-- Definition following the words of claim C1 (and spec section 8): the
checkpoint the spec says should be persisted at shutdown — the lowest
source position among the queued-but-unprocessed records, or the current
checkpoint when the queue is empty, minus one. -/
def claimed_checkpoint_to_persist (queued_positions : List Int) (current : Int) : Int :=
  (match queued_positions with
   | [] => current
   | p :: ps => ps.foldl min p) - 1

/-- Statement shape of claim C2 at a given trace: every enqueue of the
record happens strictly before the checkpoint is set to the new position. -/
def enqueuedBeforeCheckpoint (tr : List Event) (r : History) (hid : Int) : Prop :=
  ∀ i j, tr.get? i = some (Event.setCheckpoint hid) →
    tr.get? j = some (Event.enqueue r) → j < i

/-- Aggregated labels config of a handler list, as the add_handler calls
fold it (the labels_config part of registerAll). -/
def labelsConfigOf (hs : List Handler) : Option (List String) :=
  hs.foldl (fun cfg h => add_labels_to_handler_config h.labels cfg) (some [])

/-- Ordered union of the label filters of a handler list. -/
def unionLabels (hs : List Handler) : List String :=
  hs.foldl (fun acc h => appendMissing acc (h.labels.getD [])) []

/-! Concrete fixtures used by witnesses and counterexamples. -/

/-- A handler for messageAdded with no label filter (callback token 1). -/
def wA : Handler := ⟨1, none, none, [HistoryType.messageAdded], none⟩

/-- A second handler for messageAdded with no label filter (token 2). -/
def wB : Handler := ⟨2, none, none, [HistoryType.messageAdded], none⟩

/-- A messageAdded handler requiring the INBOX label (token 3). -/
def h_inbox : Handler := ⟨3, some ["INBOX"], none, [HistoryType.messageAdded], none⟩

/-- A labelAdded handler requiring the SENT label (token 4). -/
def h_sent : Handler := ⟨4, some ["SENT"], none, [HistoryType.labelAdded], none⟩

/-- Three INBOX message records, standing for the records the spec scenario
fetches at positions 101, 102 and 103. -/
def rec1 : History := ⟨["INBOX"], [], "t1", "m1", HistoryType.messageAdded⟩

def rec2 : History := ⟨["INBOX"], [], "t2", "m2", HistoryType.messageAdded⟩

def rec3 : History := ⟨["INBOX"], [], "t3", "m3", HistoryType.messageAdded⟩

/-- Environment in which every message resolution reports not-found. -/
def resolveNotFound : History → Except ResolutionError Unit :=
  fun _ => Except.error ResolutionError.notFound

/-- Environment in which every message resolution fails with another error. -/
def resolveOther : History → Except ResolutionError Unit :=
  fun _ => Except.error ResolutionError.other

/-- The spec section 8 scenario (claim C1): persistence on, checkpoint 100,
one fetch advancing to 105 with three records, stop before any worker
drains the queue. -/
def c1run : RunResult :=
  run (registerAll [wA]) true 4 none 100 [⟨.ok 105 [rec1, rec2, rec3], true⟩]

/-- The claim C2 scenario: checkpoint 100, one fetch returning new position
105 and three records. -/
def c2trace : List Event :=
  (get_updates (registerAll [wA]) false none 100
    [⟨.ok 105 [rec1, rec2, rec3], true⟩]).2.1

/-- The claim C3 scenario: the remote rejects the start position of the
first fetch as invalid/expired. -/
def c3run : RunResult :=
  run (registerAll [wA]) false 4 none 100 [⟨.err .invalidStartPosition, false⟩]

/-- The claim C4 scenario: one messageAdded handler filtering on INBOX and
one labelAdded handler filtering on SENT. -/
def c4state : ClientState := registerAll [h_inbox, h_sent]

/-! General lemmas about the embedded operations. -/

theorem dictGet_dictSet_self {β : Type} (d : List (HistoryType × β)) (t : HistoryType)
    (v : β) : dictGet (dictSet d t v) t = some v := by
  induction d with
  | nil => simp [dictGet, dictSet]
  | cons p rest ih =>
    obtain ⟨k, w⟩ := p
    by_cases hk : k = t <;> simp [dictGet, dictSet, hk, ih]

theorem dictGet_dictSet_ne {β : Type} (d : List (HistoryType × β)) (k t : HistoryType)
    (v : β) (hk : k ≠ t) : dictGet (dictSet d k v) t = dictGet d t := by
  induction d with
  | nil => simp [dictGet, dictSet, hk]
  | cons p rest ih =>
    obtain ⟨k', w⟩ := p
    by_cases hk' : k' = k
    · subst hk'
      simp [dictGet, dictSet, hk]
    · have htk : ¬ t = k := fun hh => hk hh.symm
      by_cases ht : k' = t <;> simp [dictGet, dictSet, hk', ht, htk, ih]

theorem add_handler_types_labels_config (h : Handler) :
    ∀ (ts : List HistoryType) (st : ClientState),
      (add_handler_types h ts st).labels_config = st.labels_config := by
  intro ts
  induction ts with
  | nil => intro st; rfl
  | cons t rest ih => intro st; exact ih _

theorem add_handler_handlers_getD (h : Handler) :
    ∀ (ts : List HistoryType) (st : ClientState) (t : HistoryType),
      (dictGet (add_handler_types h ts st).handlers t).getD []
        = (dictGet st.handlers t).getD [] ++ List.replicate (ts.count t) h := by
  intro ts
  induction ts with
  | nil => intro st t; simp [add_handler_types]
  | cons k rest ih =>
    intro st t
    show (dictGet (add_handler_types h rest _).handlers t).getD [] = _
    rw [ih]
    by_cases hk : k = t
    · subst hk
      simp [dictGet_dictSet_self, List.count_cons, List.replicate_succ]
    · have : (k == t) = false := by simp [hk]
      simp [dictGet_dictSet_ne _ _ _ _ hk, List.count_cons, this]

theorem add_handler_getD (st : ClientState) (h : Handler) (t : HistoryType) :
    (dictGet (add_handler st h).handlers t).getD []
      = (dictGet st.handlers t).getD []
        ++ List.replicate (h.history_types.count t) h :=
  add_handler_handlers_getD h h.history_types st t

theorem registerAll_fold_getD (t : HistoryType) :
    ∀ (hs : List Handler) (st : ClientState),
      (∀ h ∈ hs, h.history_types.count t ≤ 1) →
      (dictGet (hs.foldl add_handler st).handlers t).getD []
        = (dictGet st.handlers t).getD []
          ++ hs.filter (fun h => h.history_types.contains t) := by
  intro hs
  induction hs with
  | nil => intro st _; simp
  | cons h hs ih =>
    intro st hc
    have hcount := hc h (List.mem_cons_self h hs)
    have hrest : ∀ h' ∈ hs, h'.history_types.count t ≤ 1 :=
      fun h' hm => hc h' (List.mem_cons_of_mem h hm)
    show (dictGet (hs.foldl add_handler (add_handler st h)).handlers t).getD [] = _
    rw [ih (add_handler st h) hrest, add_handler_getD]
    rcases Nat.lt_or_ge (h.history_types.count t) 1 with hlt | hge
    · have h0 : h.history_types.count t = 0 := Nat.lt_one_iff.mp hlt
      have hmem : t ∉ h.history_types := by
        intro hm
        have := List.count_pos_iff.mpr hm
        omega
      simp [h0, List.filter_cons, hmem]
    · have h1 : h.history_types.count t = 1 := Nat.le_antisymm hcount hge
      have hmem : t ∈ h.history_types := List.count_pos_iff.mp (by omega)
      simp [h1, List.filter_cons, hmem, List.replicate_succ]

theorem mem_keys_dictSet {β : Type} (d : List (HistoryType × β)) (k t : HistoryType)
    (v : β) : t ∈ (dictSet d k v).map Prod.fst ↔ t ∈ d.map Prod.fst ∨ t = k := by
  induction d with
  | nil => simp [dictSet]
  | cons p rest ih =>
    obtain ⟨k', w⟩ := p
    by_cases hk : k' = k
    · subst hk
      simp [dictSet]
      tauto
    · simp [dictSet, hk, ih]
      tauto

theorem mem_keys_add_handler_types (h : Handler) :
    ∀ (ts : List HistoryType) (st : ClientState) (t : HistoryType),
      t ∈ (add_handler_types h ts st).handlers.map Prod.fst
        ↔ t ∈ st.handlers.map Prod.fst ∨ t ∈ ts := by
  intro ts
  induction ts with
  | nil => intro st t; simp [add_handler_types]
  | cons k rest ih =>
    intro st t
    show t ∈ (add_handler_types h rest _).handlers.map Prod.fst ↔ _
    rw [ih]
    rw [mem_keys_dictSet]
    simp only [List.mem_cons]
    tauto

theorem mem_keys_registerAll_fold :
    ∀ (hs : List Handler) (st : ClientState) (t : HistoryType),
      t ∈ (hs.foldl add_handler st).handlers.map Prod.fst
        ↔ t ∈ st.handlers.map Prod.fst ∨ ∃ h ∈ hs, t ∈ h.history_types := by
  intro hs
  induction hs with
  | nil => intro st t; simp
  | cons h hs ih =>
    intro st t
    show t ∈ (hs.foldl add_handler (add_handler st h)).handlers.map Prod.fst ↔ _
    rw [ih]
    have : (add_handler st h).handlers = (add_handler_types h h.history_types st).handlers :=
      rfl
    rw [this, mem_keys_add_handler_types]
    simp
    tauto

theorem mem_keys_registerAll (hs : List Handler) (t : HistoryType) :
    t ∈ (registerAll hs).handlers.map Prod.fst ↔ ∃ h ∈ hs, t ∈ h.history_types := by
  rw [registerAll, mem_keys_registerAll_fold]
  simp [initClient]

theorem add_labels_none (labels : Option (List String)) :
    add_labels_to_handler_config labels none = none := by
  unfold add_labels_to_handler_config
  split <;> rfl

theorem labels_config_fold_none (hs : List Handler) :
    hs.foldl (fun cfg h => add_labels_to_handler_config h.labels cfg) none = none := by
  induction hs with
  | nil => rfl
  | cons h hs ih =>
    show hs.foldl _ (add_labels_to_handler_config h.labels none) = none
    rw [add_labels_none]
    exact ih

theorem labels_config_fold_some (hs : List Handler) :
    ∀ c : List String,
      hs.foldl (fun cfg h => add_labels_to_handler_config h.labels cfg) (some c)
        = if hs.all (fun h => truthyLabels h.labels)
          then some (hs.foldl (fun acc h => appendMissing acc (h.labels.getD [])) c)
          else none := by
  induction hs with
  | nil => intro c; simp
  | cons h hs ih =>
    intro c
    show hs.foldl _ (add_labels_to_handler_config h.labels (some c)) = _
    by_cases ht : truthyLabels h.labels = true
    · have : add_labels_to_handler_config h.labels (some c)
          = some (appendMissing c (h.labels.getD [])) := by
        unfold add_labels_to_handler_config
        rw [if_pos ht]
      rw [this, ih]
      simp [List.all_cons, ht, List.foldl_cons]
    · have : add_labels_to_handler_config h.labels (some c) = none := by
        unfold add_labels_to_handler_config
        rw [if_neg ht]
      rw [this, labels_config_fold_none]
      have ht' : truthyLabels h.labels = false := by
        cases hv : truthyLabels h.labels
        · rfl
        · exact absurd hv ht
      simp [List.all_cons, ht']

theorem registerAll_fold_labels_config :
    ∀ (hs : List Handler) (st : ClientState),
      (hs.foldl add_handler st).labels_config
        = hs.foldl (fun cfg h => add_labels_to_handler_config h.labels cfg)
            st.labels_config := by
  intro hs
  induction hs with
  | nil => intro st; rfl
  | cons h hs ih =>
    intro st
    show (hs.foldl add_handler (add_handler st h)).labels_config = _
    rw [ih]
    have : (add_handler st h).labels_config
        = add_labels_to_handler_config h.labels st.labels_config := by
      show (add_labels_to_handler_config h.labels
        (add_handler_types h h.history_types st).labels_config) = _
      rw [add_handler_types_labels_config]
    rw [this]
    rfl

theorem registerAll_labels_config (hs : List Handler) :
    (registerAll hs).labels_config
      = if hs.all (fun h => truthyLabels h.labels) then some (unionLabels hs)
        else none := by
  rw [registerAll, registerAll_fold_labels_config]
  show hs.foldl _ (some []) = _
  rw [labels_config_fold_some]
  rfl

theorem loop_fetch_types (label_id : Option String) (types : List HistoryType) :
    ∀ (script : List Cycle) (st : LoopState) (s : Int) (l : Option String)
      (ts : List HistoryType),
      Event.fetch s l ts ∈ (get_updates_loop label_id types st script).2.1 →
        ts = types := by
  intro script
  induction script with
  | nil =>
    intro st s l ts hmem
    cases types <;> simp [get_updates_loop] at hmem
  | cons c rest ih =>
    intro st s l ts hmem
    obtain ⟨res, stopA⟩ := c
    cases types with
    | nil => simp [get_updates_loop] at hmem
    | cons t types' =>
      cases res with
      | err e =>
        simp [get_updates_loop] at hmem
        exact hmem.2.2
      | ok hid records =>
        cases stopA with
        | true =>
          simp [get_updates_loop] at hmem
          exact hmem.2.2
        | false =>
          simp [get_updates_loop] at hmem
          rcases hmem with ⟨-, -, h⟩ | hin
          · exact h
          · exact ih _ s l ts hin

theorem loop_queue_count (label_id : Option String) (types : List HistoryType) :
    ∀ (script : List Cycle) (st : LoopState),
      ((get_updates_loop label_id types st script).1.queue).count none
        = st.queue.count none := by
  intro script
  induction script with
  | nil => intro st; cases types <;> simp [get_updates_loop]
  | cons c rest ih =>
    intro st
    obtain ⟨res, stopA⟩ := c
    cases types with
    | nil => simp [get_updates_loop]
    | cons t types' =>
      cases res with
      | err e => simp [get_updates_loop]
      | ok hid records =>
        have hrec : ((records.map some : List QueueItem)).count none = 0 := by
          simp [List.count_eq_zero]
        cases stopA with
        | true => simp [get_updates_loop, List.count_append, hrec]
        | false => simp [get_updates_loop, List.count_append, hrec, ih]

/-! Claim theorems. -/

/-- Claim C5: handler.check returns true only if every required label of
the handler is among the record's current label ids; the three conditions
(required labels, modified labels, predicates) are evaluated in that order
with a short-circuit false at the first failing one — so when the required
labels fail, the result is false whatever the modified-labels filter and
predicates are, and when the modified-labels condition fails, the result is
false whatever the predicates are.  In particular a handler requiring INBOX
returns false on a record with current labels exactly SPAM (the witness). -/
theorem check_requires_labels_and_short_circuits :
    (∀ (self : Handler) (history : History),
        self.check history = true →
          ∀ ls, self.labels = some ls →
            ∀ l ∈ ls, history.label_ids.contains l = true) ∧
    (∀ (cb : Nat) (ls : List String) (history : History),
        labels_pass (some ls) history = false →
          ∀ (ml : Option (List String)) (fs : Option (List (History → Bool))),
            Handler.check ⟨cb, some ls, fs, [], ml⟩ history = false) ∧
    (∀ (cb : Nat) (labels ml : Option (List String)) (history : History),
        labels_pass labels history = true → modified_pass ml history = false →
          ∀ fs : Option (List (History → Bool)),
            Handler.check ⟨cb, labels, fs, [], ml⟩ history = false) := by
  refine ⟨?_, ?_, ?_⟩
  · intro self history hch ls hls l hl
    rw [Handler.check, Bool.and_eq_true] at hch
    have h1 := hch.1
    rw [hls] at h1
    simp only [labels_pass, List.all_eq_true] at h1
    exact h1 l hl
  · intro cb ls history hfail ml fs
    simp [Handler.check, hfail]
  · intro cb labels ml history hpass hfail fs
    simp [Handler.check, hpass, hfail]

/-- Claim C5 witness: a handler with required label INBOX does not fire for
a record whose current labels are exactly SPAM. -/
theorem check_requires_labels_and_short_circuits_witness :
    Handler.check ⟨0, some ["INBOX"], none, [], none⟩
      ⟨["SPAM"], [], "t", "m", HistoryType.messageAdded⟩ = false :=
  check_requires_labels_and_short_circuits.2.1 0 ["INBOX"]
    ⟨["SPAM"], [], "t", "m", HistoryType.messageAdded⟩ (by decide) none none

/-- Claim C10: when a record's own modified-labels list is empty, check
skips the modified-labels condition entirely — the result is the same as if
the handler had no modified-labels filter, so the handler can still fire —
while the filter is enforced (check is false) whenever the record reports
at least one modified label and some required modified label is missing. -/
theorem check_skips_modified_filter_on_empty_record :
    (∀ (self : Handler) (history : History),
        history.modified_labels = [] →
          ∀ ml : Option (List String),
            Handler.check { self with modified_labels := ml } history
              = Handler.check { self with modified_labels := none } history) ∧
    (∀ (cb : Nat) (labels : Option (List String))
        (fs : Option (List (History → Bool))) (ts : List HistoryType)
        (rls : List String) (history : History),
        history.modified_labels ≠ [] →
        (∃ l, l ∈ rls ∧ history.modified_labels.contains l = false) →
        Handler.check ⟨cb, labels, fs, ts, some rls⟩ history = false) := by
  constructor
  · intro self history hempty ml
    have hml : modified_pass ml history = true := by
      cases ml with
      | none => rfl
      | some ls => simp [modified_pass, hempty]
    have hnone : modified_pass none history = true := rfl
    simp [Handler.check, hml, hnone]
  · intro cb labels fs ts rls history hne hmiss
    obtain ⟨l, hl, hcon⟩ := hmiss
    have hml : modified_pass (some rls) history = false := by
      cases hrec : history.modified_labels with
      | nil => exact absurd hrec hne
      | cons x xs =>
        simp only [modified_pass, hrec]
        rw [List.all_eq_false]
        refine ⟨l, hl, ?_⟩
        rw [hrec] at hcon
        simpa using hcon
    simp [Handler.check, hml]

/-- Claim C10 witness: a handler whose modified-labels filter requires
IMPORTANT still fires for a record whose modified-labels list is empty. -/
theorem check_skips_modified_filter_on_empty_record_witness :
    Handler.check ⟨0, none, none, [], some ["IMPORTANT"]⟩
      ⟨["INBOX"], [], "t", "m", HistoryType.labelAdded⟩ = true := by
  have h := check_skips_modified_filter_on_empty_record.1
    ⟨0, none, none, [], some ["IMPORTANT"]⟩
    ⟨["INBOX"], [], "t", "m", HistoryType.labelAdded⟩ rfl (some ["IMPORTANT"])
  exact h.trans (by decide)

/-- Claim C6: when resolution of the dequeued record's message reports that
the entity was not found, the record is skipped and the worker continues
with the rest of the queue unchanged; any other resolution error propagates
out of handle_update and terminates the worker loop (the rest of the queue
is not processed and no callback runs for that record). -/
theorem worker_skips_not_found_and_propagates_other :
    (∀ (st : ClientState) (resolve : History → Except ResolutionError Unit)
        (h : History) (rest : List QueueItem),
        resolve h = Except.error ResolutionError.notFound →
        update_worker st resolve (some h :: rest) = update_worker st resolve rest) ∧
    (∀ (st : ClientState) (resolve : History → Except ResolutionError Unit)
        (h : History) (rest : List QueueItem),
        resolve h = Except.error ResolutionError.other →
        prefilterSkips ((dictGet st.labels_per_type h.history_type).getD none) h
            = false →
        update_worker st resolve (some h :: rest)
          = ([], some ResolutionError.other)) := by
  constructor
  · intro st resolve h rest hres
    have hup : handle_update st (resolve h) h = Except.ok [] := by
      rw [hres]
      simp [handle_update]
    simp [update_worker, hup]
  · intro st resolve h rest hres hpre
    have hup : handle_update st (resolve h) h
        = Except.error ResolutionError.other := by
      rw [hres]
      unfold handle_update
      rw [if_neg (by simp [hpre])]
    simp [update_worker, hup]

/-- Claim C6 witness: with every resolution reporting not-found the worker
skips the first record and continues; with another resolution error the
worker terminates at once with that error. -/
theorem worker_skips_not_found_and_propagates_other_witness :
    (update_worker (registerAll [wA]) resolveNotFound
        (some rec1 :: [some rec2, none])
      = update_worker (registerAll [wA]) resolveNotFound [some rec2, none]) ∧
    (update_worker (registerAll [wA]) resolveOther (some rec1 :: [some rec2])
      = ([], some ResolutionError.other)) :=
  ⟨worker_skips_not_found_and_propagates_other.1 (registerAll [wA]) resolveNotFound
      rec1 [some rec2, none] rfl,
   worker_skips_not_found_and_propagates_other.2 (registerAll [wA]) resolveOther
      rec1 [some rec2] rfl (by decide)⟩

/-- Claim C7: on shutdown exactly one stop sentinel per configured worker is
enqueued — with persistence disabled the queue is cleared first, so the
queue is exactly the workers sentinels; with persistence enabled they are
appended after the pending records; in every full run the queue left behind
holds exactly workers sentinels, since the producer never enqueues a
sentinel during polling — and a worker that dequeues a sentinel exits at
once without dispatching it. -/
theorem shutdown_sentinel_discipline :
    (∀ (workers : Nat) (hid : Int) (q : List QueueItem),
        (handle_stop false workers hid q).1 = List.replicate workers none) ∧
    (∀ (workers : Nat) (hid : Int) (q : List QueueItem),
        (handle_stop true workers hid q).1 = q ++ List.replicate workers none) ∧
    (∀ (st : ClientState) (save_state : Bool) (workers : Nat)
        (stored : Option Int) (hid : Int) (script : List Cycle),
        (run st save_state workers stored hid script).queue_after_stop.count none
          = workers) ∧
    (∀ (st : ClientState) (resolve : History → Except ResolutionError Unit)
        (rest : List QueueItem),
        update_worker st resolve (none :: rest) = ([], none)) := by
  refine ⟨?_, ?_, ?_, ?_⟩
  · intro workers hid q
    simp [handle_stop]
  · intro workers hid q
    simp [handle_stop]
  · intro st save_state workers stored hid script
    have hq : ((get_updates st save_state stored hid script).1.queue).count none
        = 0 := by
      rw [get_updates, loop_queue_count]
      simp
    show ((handle_stop save_state workers _ _).1).count none = workers
    cases save_state with
    | false =>
      simp [handle_stop, List.count_replicate]
    | true =>
      simp [handle_stop, List.count_append, List.count_replicate, hq]
  · intro st resolve rest
    rfl

/-- Claim C9: add_handler appends the handler to the per-type list (once per
occurrence of the type in its history_types), so registration order is
preserved; registering a handler list on a fresh client yields, for each
type, exactly the interested handlers in registration order; and the
dispatch of one record checks and invokes the candidate handlers in exactly
that list order (the invoked-callback sequence is the registration-ordered
list filtered by check). -/
theorem registration_order_preserved_in_dispatch :
    (∀ (st : ClientState) (h : Handler) (t : HistoryType),
        (dictGet (add_handler st h).handlers t).getD []
          = (dictGet st.handlers t).getD []
            ++ List.replicate (h.history_types.count t) h) ∧
    (∀ (hs : List Handler) (t : HistoryType),
        (∀ h ∈ hs, h.history_types.count t ≤ 1) →
        (dictGet (registerAll hs).handlers t).getD []
          = hs.filter (fun h => h.history_types.contains t)) ∧
    (∀ (st : ClientState) (history : History),
        handle_update st (Except.ok ()) history
          = if prefilterSkips
                ((dictGet st.labels_per_type history.history_type).getD none)
                history
            then Except.ok []
            else Except.ok
              ((((dictGet st.handlers history.history_type).getD []).filter
                  (fun h => h.check history)).map Handler.callback)) := by
  refine ⟨add_handler_getD, ?_, ?_⟩
  · intro hs t hc
    rw [registerAll, registerAll_fold_getD t hs initClient hc]
    rfl
  · intro st history
    rfl

/-- Claim C9 witness: two messageAdded handlers registered in order appear
in that order in the messageAdded dispatch list. -/
theorem registration_order_preserved_in_dispatch_witness :
    (dictGet (registerAll [wA, wB]).handlers HistoryType.messageAdded).getD []
      = [wA, wB] := by
  have h := registration_order_preserved_in_dispatch.2.1 [wA, wB]
    HistoryType.messageAdded (by decide)
  exact h.trans rfl

/-- Claim C8: with no registered handler the polling loop performs no fetch
at all (the run trace is empty); and every fetch issued by the loop requests
exactly the registered history types — the keys of the handlers dict — so a
type belongs to a fetch request if and only if some registered handler
declared it. -/
theorem fetch_only_registered_types :
    (∀ (save_state : Bool) (workers : Nat) (stored : Option Int) (hid : Int)
        (script : List Cycle),
        (run initClient save_state workers stored hid script).trace = []) ∧
    (∀ (hs : List Handler) (save_state : Bool) (stored : Option Int) (hid : Int)
        (script : List Cycle) (s : Int) (l : Option String)
        (ts : List HistoryType),
        Event.fetch s l ts
            ∈ (get_updates (registerAll hs) save_state stored hid script).2.1 →
          ts = (registerAll hs).handlers.map Prod.fst ∧
            ∀ t, t ∈ ts ↔ ∃ h ∈ hs, t ∈ h.history_types) := by
  constructor
  · intro save_state workers stored hid script
    cases script <;> rfl
  · intro hs save_state stored hid script s l ts hmem
    rw [get_updates] at hmem
    have hts := loop_fetch_types (computeLabelId (registerAll hs).labels_config)
      ((registerAll hs).handlers.map Prod.fst) script _ s l ts hmem
    refine ⟨hts, ?_⟩
    intro t
    rw [hts]
    exact mem_keys_registerAll hs t

/-- Claim C8 witness: with one messageAdded handler the single fetch of a
one-cycle script requests exactly the messageAdded type. -/
theorem fetch_only_registered_types_witness :
    [HistoryType.messageAdded] = (registerAll [wA]).handlers.map Prod.fst :=
  (fetch_only_registered_types.2 [wA] false none 7 [⟨.ok 5 [], false⟩] 7 none
    [HistoryType.messageAdded] (by decide)).1

/-- Claim C2 counterexample: starting from checkpoint 100 with a fetch
returning new position 105 and three records, the trace sets the checkpoint
to 105 (index 1) before any record is enqueued (indices 2..4) — so the
claim that all records are enqueued before the checkpoint advances is false
at this input.  The source assigns self.history_id = histories.history_id
(gmail.py line 383) before the enqueue loop (lines 384-385). -/
theorem enqueue_before_checkpoint_counterexample :
    c2trace
        = [Event.fetch 100 none [HistoryType.messageAdded],
           Event.setCheckpoint 105, Event.enqueue rec1, Event.enqueue rec2,
           Event.enqueue rec3] ∧
      ¬ enqueuedBeforeCheckpoint c2trace rec1 105 := by
  constructor
  · decide
  · intro hcl
    have h := hcl 1 2 (by decide) (by decide)
    omega

/-- Claim C2 amended: within one polling cycle, the checkpoint is advanced
to the position returned by the fetch immediately after the fetch returns,
and only then are the records of that fetch enqueued — in the scenario,
the checkpoint becomes 105 and the three records are enqueued afterwards. -/
theorem checkpoint_advances_before_enqueue :
    ∀ (lbl : Option String) (t : HistoryType) (ts : List HistoryType)
      (st : LoopState) (hid : Int) (records : List History) (b : Bool)
      (rest : List Cycle),
      ∃ tail,
        (get_updates_loop lbl (t :: ts) st (⟨.ok hid records, b⟩ :: rest)).2.1
          = Event.fetch st.history_id lbl (t :: ts) ::
              Event.setCheckpoint hid :: (records.map Event.enqueue ++ tail) := by
  intro lbl t ts st hid records b rest
  cases b with
  | true =>
    refine ⟨[], ?_⟩
    simp [get_updates_loop]
  | false =>
    refine ⟨Event.sleep ::
      (get_updates_loop lbl (t :: ts)
        ⟨hid, st.queue ++ records.map some⟩ rest).2.1, ?_⟩
    simp [get_updates_loop]

/-- Claim C1 counterexample: in the spec scenario (checkpoint 100, one
fetch advancing to 105 with three records, stop before any worker drains
the queue, persistence enabled) the code persists 105 - 1 = 104, computed
from the current checkpoint alone; the claim's formula (lowest queued
source position 101 minus one) demands 100.  _handle_stop (gmail.py lines
394-397) reads only self.history_id and never inspects the queue. -/
theorem persisted_checkpoint_counterexample :
    c1run.persisted = some 104 ∧
    claimed_checkpoint_to_persist [101, 102, 103] 105 = 100 ∧
    c1run.persisted
        ≠ some (claimed_checkpoint_to_persist [101, 102, 103] 105) := by
  refine ⟨by decide, by decide, by decide⟩

/-- Claim C1 amended: on shutdown with persistence enabled the persisted
checkpoint is the loop's current checkpoint (the position returned by the
last fetch) minus one, computed without consulting the queue — the persisted
value is the same whatever records remain queued. -/
theorem persisted_checkpoint_is_current_minus_one :
    ∀ (workers : Nat) (hid : Int) (q q' : List QueueItem)
      (st : ClientState) (stored : Option Int) (hid0 : Int)
      (script : List Cycle),
      (handle_stop true workers hid q).2 = some (hid - 1) ∧
      (handle_stop true workers hid q).2 = (handle_stop true workers hid q').2 ∧
      (run st true workers stored hid0 script).persisted
        = some ((get_updates st true stored hid0 script).1.history_id - 1) := by
  intro workers hid q q' st stored hid0 script
  refine ⟨by simp [handle_stop], by simp [handle_stop], ?_⟩
  simp [run, handle_stop]

/-- Claim C3 counterexample: when the remote rejects the start position of a
fetch as invalid/expired, the error propagates out of the polling loop as
its outcome and no fallback to a live position happens (the checkpoint is
left at 100) — refuting the claim that this condition never propagates out
of the loop.  get_history_data (helper.py lines 79-98) issues the request
with no error handling. -/
theorem stale_checkpoint_counterexample :
    c3run.outcome = LoopOutcome.errored FetchError.invalidStartPosition ∧
    c3run.final.history_id = 100 ∧
    c3run.final.queue = [] := by
  refine ⟨by decide, by decide, by decide⟩

/-- Claim C3 amended: an invalid/expired start position is not handled
specially — the fetch error terminates the polling loop at once, with the
loop state unchanged and no fallback to the live position; run still
executes the shutdown handler before the error surfaces, so with
persistence enabled a checkpoint is persisted even on an erroring script. -/
theorem fetch_error_propagates_after_cleanup :
    (∀ (lbl : Option String) (t : HistoryType) (ts : List HistoryType)
        (st : LoopState) (e : FetchError) (b : Bool) (rest : List Cycle),
        get_updates_loop lbl (t :: ts) st (⟨.err e, b⟩ :: rest)
          = (st, [Event.fetch st.history_id lbl (t :: ts)],
              LoopOutcome.errored e)) ∧
    (∀ (st : ClientState) (workers : Nat) (stored : Option Int) (hid : Int)
        (script : List Cycle),
        ((run st true workers stored hid script).persisted).isSome = true) := by
  constructor
  · intro lbl t ts st e b rest
    rfl
  · intro st workers stored hid script
    simp [run, handle_stop]

/-- Claim C4 counterexample: with a messageAdded handler filtering on INBOX
and a labelAdded handler filtering on SENT, every handler registered for
messageAdded has the same single non-empty label filter INBOX, yet the
(single, shared) fetch of the cycle is issued with no server-side label
filter: the aggregation is over the global labels config, which is
["INBOX", "SENT"] and not a singleton. -/
theorem label_pushdown_counterexample :
    dictGet c4state.handlers HistoryType.messageAdded = some [h_inbox] ∧
    h_inbox.labels = some ["INBOX"] ∧
    c4state.labels_config = some ["INBOX", "SENT"] ∧
    computeLabelId c4state.labels_config = none ∧
    (get_updates c4state false none 100 [⟨.ok 101 [], true⟩]).2.1
      = [Event.fetch 100 none
           [HistoryType.messageAdded, HistoryType.labelAdded],
         Event.setCheckpoint 101] :=
  ⟨rfl, rfl, rfl, rfl, rfl⟩

/-- Claim C4 amended: the label-filter aggregation is global across all
change-types, not per-type — the single fetch per cycle carries a
server-side label filter exactly when every registered handler (for any
type) has a non-empty label filter and the ordered union of all handlers'
labels is exactly one label; otherwise the fetch carries no filter and each
handler re-filters client-side in check. -/
theorem label_filter_aggregation_is_global :
    ∀ hs : List Handler,
      (registerAll hs).labels_config
        = (if hs.all (fun h => truthyLabels h.labels) then some (unionLabels hs)
           else none) ∧
      ∀ l : String,
        computeLabelId (registerAll hs).labels_config = some l
          ↔ (hs.all (fun h => truthyLabels h.labels) = true
              ∧ unionLabels hs = [l]) := by
  intro hs
  refine ⟨registerAll_labels_config hs, ?_⟩
  intro l
  rw [registerAll_labels_config hs]
  by_cases hall : hs.all (fun h => truthyLabels h.labels) = true
  · rw [if_pos hall]
    constructor
    · intro hc
      refine ⟨hall, ?_⟩
      rcases hu : unionLabels hs with _ | ⟨x, rest⟩
      · rw [hu] at hc
        exact Option.noConfusion hc
      · rcases rest with _ | ⟨y, zs⟩
        · rw [hu] at hc
          have hx : x = l := Option.some.inj hc
          rw [hx]
        · rw [hu] at hc
          exact Option.noConfusion hc
    · rintro ⟨-, hu⟩
      rw [hu]
      rfl
  · rw [if_neg hall]
    have hnone : computeLabelId (none : Option (List String)) = none := rfl
    rw [hnone]
    constructor
    · intro habs
      exact absurd habs (by simp)
    · rintro ⟨habs, -⟩
      exact absurd habs hall

/-- Claim C4 amended witness: a single INBOX-filtered handler makes the
global config the singleton INBOX, which is pushed down. -/
theorem label_filter_aggregation_is_global_witness :
    (registerAll [h_inbox]).labels_config
      = (if [h_inbox].all (fun h => truthyLabels h.labels)
         then some (unionLabels [h_inbox]) else none) :=
  (label_filter_aggregation_is_global [h_inbox]).1

end GW
